import Mathlib

/-!
Shallow embedding of the upload-then-ingest workflow of the document-bot
client (src/ui/ingest/js/upload.js, src/ui/ingest/js/data-ingestion.js,
src/ui/ingest/js/session.js, src/ui/ingest/js/models.js).

The browser environment (DOM inputs, the session held by the session
manager at each moment, and the network's reply to each request) is passed
in explicitly; all machine behaviour is translated directly from the
JavaScript source.  File byte contents are opaque (a `Nat` tag), since the
client never inspects them.
-/

namespace DocBot

/-- A JavaScript value, as far as the session fields need: the source tests
`s.isLoggedIn === true` (strict equality), so a truthy-but-not-boolean
value such as the string "true" must be distinguishable from `true`. -/
inductive JsVal where
  | vBool : Bool → JsVal
  | vStr : String → JsVal
  | vNum : Int → JsVal
  | vNull : JsVal
deriving DecidableEq, Repr

/-- The `user` object inside a stored session.  An empty username models a
falsy `username` field (the source falls back to "unknown"/"anonymous"). -/
structure User where
  username : String
deriving DecidableEq, Repr

/-- The session object stored under the `documentBot_session` key.  An
empty `sessionId` models a falsy session id. -/
structure Session where
  sessionId : String
  user : Option User
  isLoggedIn : JsVal
deriving DecidableEq, Repr

/-- session.js `isValidSession`:
`!!(s && s.sessionId && s.user && s.isLoggedIn === true)`. -/
def isValidSession : Option Session → Bool
  | some s => (s.sessionId != "") && s.user.isSome && (s.isLoggedIn == JsVal.vBool true)
  | none => false

/-- session.js `getSessionId`:
`return this.isValidSession() ? this.currentSession.sessionId : null;`. -/
def getSessionId (sess : Option Session) : Option String :=
  if isValidSession sess then sess.map Session.sessionId else none

/-- upload.js: `this.sessionManager?.currentSession?.user?.username || "unknown"`. -/
def userIdOf : Option Session → String
  | some s =>
    match s.user with
    | some u => if u.username = "" then "unknown" else u.username
    | none => "unknown"
  | none => "unknown"

/-- A file picked by the user.  `content` is an opaque tag for the bytes. -/
structure File where
  name : String
  size : Nat
  type : String
  content : Nat
deriving DecidableEq, Repr

/-- JS `String.prototype.trim()` on a character list: drop whitespace from
both ends. -/
def jsTrim (s : String) : String :=
  String.mk (((s.data.dropWhile Char.isWhitespace).reverse.dropWhile Char.isWhitespace).reverse)

/-- The characters after the last dot: models
`fileName.split(".").pop()` (on a dotless name this is the whole name,
exactly as `split` then `pop` yields). -/
def afterLastDot : List Char → List Char → List Char
  | [], cur => cur
  | c :: rest, cur =>
    if c = '.' then afterLastDot rest [] else afterLastDot rest (cur ++ [c])

/-- upload.js `getContentTypeFromExtension`: extension is the substring
after the final dot, lowercased; unknown extensions map to
"application/octet-stream". -/
def getContentTypeFromExtension (fileName : String) : String :=
  let ext := String.mk ((afterLastDot fileName.data []).map Char.toLower)
  if ext = "pdf" then "application/pdf"
  else if ext = "doc" then "application/msword"
  else if ext = "docx" then "application/vnd.openxmlformats-officedocument.wordprocessingml.document"
  else if ext = "txt" then "text/plain"
  else if ext = "csv" then "text/csv"
  else if ext = "xlsx" then "application/vnd.openxmlformats-officedocument.spreadsheetml.sheet"
  else if ext = "xls" then "application/vnd.ms-excel"
  else "application/octet-stream"

/-- The payload returned by models.js `getSelectedEmbeddingModelPayload`
(only the two fields upload.js reads). `none` models the null returned
when no model is selected. -/
structure EmbeddingPayload where
  embedding_provider : String
  embedding_model : String
deriving DecidableEq, Repr

/-- upload.js lines 105-107: `getSelectedEmbeddingModelPayload?.() || {}`
then `payload.embedding_provider || "bedrock"` and
`payload.embedding_model || "amazon.titan-embed-text-v2:0"`
(an empty string field is falsy). -/
def resolveEmbedding : Option EmbeddingPayload → EmbeddingPayload
  | none => ⟨"bedrock", "amazon.titan-embed-text-v2:0"⟩
  | some p =>
    ⟨if p.embedding_provider = "" then "bedrock" else p.embedding_provider,
     if p.embedding_model = "" then "amazon.titan-embed-text-v2:0" else p.embedding_model⟩

/-- The request body sent to the GET_PRESIGNED_URL route (upload.js
lines 109-118); `file_content` carries the opaque byte tag in place of the
base64 string. -/
structure UploadPayload where
  project_name : String
  file_name : String
  content_type : String
  file_content : Nat
  session_id : String
  user_id : String
  embedding_provider : String
  embedding_model : String
deriving DecidableEq, Repr

def buildUploadPayload (pn : String) (msel : Option EmbeddingPayload)
    (sid uid : String) (f : File) : UploadPayload :=
  let emb := resolveEmbedding msel
  { project_name := pn
    file_name := f.name
    content_type := if f.type = "" then getContentTypeFromExtension f.name else f.type
    file_content := f.content
    session_id := sid
    user_id := uid
    embedding_provider := emb.embedding_provider
    embedding_model := emb.embedding_model }

/-- The raw backend response to one upload request.  `statusCode` and the
parsed body's `error` field are the only parts the client reads; `extra`
is an opaque tag standing for everything else in the raw response, so
that "the entire raw response is passed through" is a meaningful claim. -/
structure UploadResponse where
  statusCode : Nat
  error : Option String
  extra : Nat
deriving DecidableEq, Repr

/-- What the network does for one request: a parsed response, or a thrown
transport error (`makeApiRequest` throws on fetch failure / `!response.ok`). -/
inductive NetResult where
  | transportError : String → NetResult
  | respond : UploadResponse → NetResult
deriving DecidableEq, Repr

/-- JS `a || b` on an optional string (empty string is falsy). -/
def jsOrString (o : Option String) (d : String) : String :=
  match o with
  | some s => if s = "" then d else s
  | none => d

/-- Exact-rational model of JS `(size / (1024*1024)).toFixed(1)`:
tenths of a MiB, rounded half up. -/
def mibTenths (size : Nat) : Nat :=
  (20 * size + 1024 * 1024) / (2 * (1024 * 1024))

/-- Render the tenths count as a one-decimal string, as `toFixed(1)` does. -/
def fmtMiB1 (size : Nat) : String :=
  toString (mibTenths size / 10) ++ "." ++ toString (mibTenths size % 10)

/-- upload.js line 100: the oversize error message. -/
def sizeErrorMsg (f : File) : String :=
  "File \"" ++ f.name ++ "\" is too large (" ++ fmtMiB1 f.size ++ "MB). Max 30MB allowed."

/-- Outcome of one `uploadSingleFile` call: the returned raw response, or
the thrown error message. -/
inductive SingleResult where
  | ok : UploadResponse → SingleResult
  | err : String → SingleResult
deriving DecidableEq, Repr

/-- One `uploadSingleFile` call together with the request it sent
(`none` when it threw before reaching the network). -/
structure SingleRun where
  result : SingleResult
  payloadSent : Option UploadPayload
deriving DecidableEq, Repr

/-- upload.js `uploadSingleFile` (lines 92-138): session check, 30 MiB
size check, payload build, network call, non-200 body check; on success
the whole raw response object is returned. -/
def uploadSingleFile (pn : String) (msel : Option EmbeddingPayload)
    (sess : Option Session) (f : File) (net : NetResult) : SingleRun :=
  match getSessionId sess with
  | none => ⟨SingleResult.err ("No valid session. Please login again."), none⟩
  | some sid =>
    if 30 * 1024 * 1024 < f.size then
      ⟨SingleResult.err (sizeErrorMsg f), none⟩
    else
      match net with
      | NetResult.transportError m =>
          ⟨SingleResult.err m, some (buildUploadPayload pn msel sid (userIdOf sess) f)⟩
      | NetResult.respond r =>
        if r.statusCode ≠ 200 then
          ⟨SingleResult.err (jsOrString r.error ("Upload failed at Lambda")),
            some (buildUploadPayload pn msel sid (userIdOf sess) f)⟩
        else
          ⟨SingleResult.ok r, some (buildUploadPayload pn msel sid (userIdOf sess) f)⟩

/-- The environment at the moment one file is processed: the session the
session manager then holds, and the network's behaviour for that file's
request. -/
structure FileEnv where
  session : Option Session
  net : NetResult
deriving DecidableEq, Repr

/-- `uploadSingleFile` applied to one file in its environment. -/
def stepRun (pn : String) (msel : Option EmbeddingPayload) (f : File) (e : FileEnv) : SingleRun :=
  uploadSingleFile pn msel e.session f e.net

/-- Whether the step for file `f` in environment `e` succeeds. -/
def stepOk (pn : String) (msel : Option EmbeddingPayload) (f : File) (e : FileEnv) : Bool :=
  match (stepRun pn msel f e).result with
  | SingleResult.ok _ => true
  | SingleResult.err _ => false

/-- The error message a failing step throws (empty for a succeeding step). -/
def stepErrMsg (s : SingleRun) : String :=
  match s.result with
  | SingleResult.err m => m
  | SingleResult.ok _ => ""

/-- Exact-rational model of upload.js line 50,
`Math.round(((i + 1) / n) * 100)` with `k = i + 1`: round half up of
`100 * k / n`. -/
def jsRoundPercent (k n : Nat) : Nat :=
  (200 * k + n) / (2 * n)

/-- The percentages reported by `m` consecutive successful steps starting
after index `i`, out of `n` files. -/
def percentsFrom (i n : Nat) : Nat → List Nat
  | 0 => []
  | m + 1 => jsRoundPercent (i + 1) n :: percentsFrom (i + 1) n m

/-- In-memory `uploadedFiles` plus the localStorage value under
`document_bot_upload_responses` (`none` = key absent). -/
structure UploadState where
  uploadedFiles : List UploadResponse
  buffer : Option (List UploadResponse)
deriving DecidableEq, Repr

/-- upload.js `loadFromLocalStorage`: absent (or unparsable) storage yields
an empty list. -/
def loadFromLocalStorage (st : UploadState) : List UploadResponse :=
  st.buffer.getD []

/-- upload.js `getUploadedFilesData`:
`this.uploadedFiles?.length ? this.uploadedFiles : this.loadFromLocalStorage()`. -/
def getUploadedFilesData (st : UploadState) : List UploadResponse :=
  if st.uploadedFiles.isEmpty then loadFromLocalStorage st else st.uploadedFiles

/-- upload.js `clearUploadedFilesData`: clears memory and removes the
storage key. -/
def clearUploadedFilesData (_st : UploadState) : UploadState :=
  ⟨[], none⟩

/-- Outcome of one `uploadSelectedFiles` call. -/
inductive RunOutcome where
  | validationError : String → RunOutcome
  | batchError : String → RunOutcome
  | success : RunOutcome
deriving DecidableEq, Repr

/-- Result of one `uploadSelectedFiles` call: outcome, final state, every
payload actually sent over the network, and the progress percentages
reported (in order). -/
structure RunResult where
  outcome : RunOutcome
  state : UploadState
  calls : List UploadPayload
  percents : List Nat
deriving DecidableEq, Repr

/-- One `uploadSelectedFiles` invocation's inputs: the selected files, the
trimmed-later project-name input, the model selection, and the per-file
environment trace (session and network behaviour at each file's moment). -/
structure RunConfig where
  projectName : String
  modelSel : Option EmbeddingPayload
  files : List File
  envs : List FileEnv
deriving DecidableEq, Repr

/-- The upload loop of upload.js lines 44-60: sequentially upload each
file, push each raw response, report the rounded percentage.  The
environment trace must cover each file; an exhausted trace fails the
batch (unreachable under the length hypotheses of every theorem below). -/
def runLoop (pn : String) (msel : Option EmbeddingPayload) (n : Nat) :
    Nat → List File → List FileEnv → List UploadResponse → List UploadPayload →
    List Nat → RunOutcome × List UploadResponse × List UploadPayload × List Nat
  | _, [], _, acc, calls, pcts => (RunOutcome.success, acc, calls, pcts)
  | _, _ :: _, [], acc, calls, pcts =>
      (RunOutcome.batchError ("environment trace exhausted"), acc, calls, pcts)
  | i, f :: fs, e :: es, acc, calls, pcts =>
    let s := stepRun pn msel f e
    match s.result with
    | SingleResult.err m => (RunOutcome.batchError m, acc, calls ++ s.payloadSent.toList, pcts)
    | SingleResult.ok r =>
        runLoop pn msel n (i + 1) fs es (acc ++ [r])
          (calls ++ s.payloadSent.toList) (pcts ++ [jsRoundPercent (i + 1) n])

/-- upload.js `uploadSelectedFiles` (lines 15-90): the file-selection check
comes first, then the trimmed project-name check; then `uploadedFiles` and
the localStorage buffer are cleared, the loop runs, and only after every
file succeeds is the full sequence written to localStorage
(`saveToLocalStorage`, line 71); on a thrown error the catch block leaves
the partial in-memory sequence and the (cleared) buffer as they are. -/
def uploadSelectedFiles (cfg : RunConfig) (st : UploadState) : RunResult :=
  if cfg.files.isEmpty then
    ⟨RunOutcome.validationError ("Please select files to upload"), st, [], []⟩
  else
    let pn := jsTrim cfg.projectName
    if pn = "" then
      ⟨RunOutcome.validationError ("Please enter a project name"), st, [], []⟩
    else
      match runLoop pn cfg.modelSel cfg.files.length 0 cfg.files cfg.envs [] [] [] with
      | (RunOutcome.success, acc, calls, pcts) =>
          ⟨RunOutcome.success, ⟨acc, some acc⟩, calls, pcts⟩
      | (out, acc, calls, pcts) => ⟨out, ⟨acc, none⟩, calls, pcts⟩

/-- The `summary` field of an ingestion response body: the source handles
both an object with counts and a plain (truthy) string. -/
inductive SummaryVal where
  | obj : Nat → Nat → Nat → SummaryVal
  | str : String → SummaryVal
deriving DecidableEq, Repr

/-- The parsed body (plus status code) of an ingestion response.  A `some`
field models a present, truthy field; `results` elements are opaque. -/
structure IngestResponse where
  statusCode : Nat
  summary : Option SummaryVal
  results : Option (List Nat)
  error : Option String
deriving DecidableEq, Repr

/-- Network behaviour for the single ingestion request. -/
inductive IngestNet where
  | transportError : String → IngestNet
  | respond : IngestResponse → IngestNet
deriving DecidableEq, Repr

/-- data-ingestion.js line 133: the success interpretation,
`response.statusCode === 200 && (body.summary || body.results)`. -/
def interpretIngest (r : IngestResponse) : Bool :=
  (r.statusCode == 200) && (r.summary.isSome || r.results.isSome)

/-- data-ingestion.js lines 134-138: the summary text shown on success. -/
def summaryLine (r : IngestResponse) : String :=
  match r.summary with
  | some (SummaryVal.obj total succeeded errors) =>
      "Total: " ++ toString total ++ ", Success: " ++ toString succeeded ++
        ", Errors: " ++ toString errors
  | some (SummaryVal.str s) => s
  | none => "Completed"

/-- data-ingestion.js lines 161-163: `body?.error ||` the synthesized
diagnostic embedding the status code and which fields were missing. -/
def ingestErrorMsg (r : IngestResponse) : String :=
  jsOrString r.error
    ("Response validation failed (status: " ++ toString r.statusCode ++
     ", has summary: " ++ (if r.summary.isSome then "true" else "false") ++
     ", has results: " ++ (if r.results.isSome then "true" else "false") ++ ")")

/-- Outcome of one `processDocuments` call. -/
inductive ProcOutcome where
  | validationError : String → ProcOutcome
  | ingestError : String → ProcOutcome
  | success : String → ProcOutcome
deriving DecidableEq, Repr

def ProcOutcome.isSuccess : ProcOutcome → Bool
  | ProcOutcome.success _ => true
  | _ => false

/-- Result of one `processDocuments` call: outcome, the state afterwards,
and the sequence submitted to the ingestion endpoint (`none` when no
network call was made). -/
structure ProcResult where
  outcome : ProcOutcome
  state : UploadState
  submitted : Option (List UploadResponse)
deriving DecidableEq, Repr

/-- data-ingestion.js `processDocuments` (lines 16-173): trimmed
project-name check, session check, read the sequence from memory with
localStorage fallback, the direct-localStorage backup branch (lines
39-104, which on success does NOT clear the buffer; it is unreachable
while the upload manager is present, as modelled here), the empty-sequence
check, then the ingestion call; interpreted success clears memory and
buffer (`clearUploadedFilesData`, line 148), every failure leaves the
state untouched. -/
def processDocuments (projectName : String) (sess : Option Session)
    (st : UploadState) (net : IngestNet) : ProcResult :=
  if jsTrim projectName = "" then
    ⟨ProcOutcome.validationError ("Please enter a project name."), st, none⟩
  else if !isValidSession sess then
    ⟨ProcOutcome.validationError ("No valid session found. Please login again."), st, none⟩
  else
    let directFromStorage := st.buffer
    let lambdaResponses := getUploadedFilesData st
    if lambdaResponses.isEmpty && directFromStorage.isSome
        && !(directFromStorage.getD []).isEmpty then
      match net with
      | IngestNet.transportError m =>
          ⟨ProcOutcome.ingestError m, st, some (directFromStorage.getD [])⟩
      | IngestNet.respond r =>
          if interpretIngest r then
            ⟨ProcOutcome.success (summaryLine r), st, some (directFromStorage.getD [])⟩
          else
            ⟨ProcOutcome.ingestError (ingestErrorMsg r), st, some (directFromStorage.getD [])⟩
    else if lambdaResponses.isEmpty then
      ⟨ProcOutcome.validationError ("No files have been uploaded yet. Please upload files first."),
        st, none⟩
    else
      match net with
      | IngestNet.transportError m => ⟨ProcOutcome.ingestError m, st, some lambdaResponses⟩
      | IngestNet.respond r =>
        if interpretIngest r then
          ⟨ProcOutcome.success (summaryLine r), clearUploadedFilesData st, some lambdaResponses⟩
        else
          ⟨ProcOutcome.ingestError (ingestErrorMsg r), st, some lambdaResponses⟩

/-- Whether `p` is an initial segment of `l`. -/
def startsWithList : List Char → List Char → Bool
  | [], _ => true
  | _ :: _, [] => false
  | p :: ps, c :: cs => (p == c) && startsWithList ps cs

/-- Whether the pattern occurs somewhere in the list. -/
def containsList (pat : List Char) : List Char → Bool
  | [] => startsWithList pat []
  | c :: rest => startsWithList pat (c :: rest) || containsList pat rest

/-- Bool test for one string containing another substring. -/
def strContains (s pat : String) : Bool :=
  containsList pat.data s.data

/-- The raw response delivered by an environment's network behaviour
(empty when the network threw instead). -/
def envResp (e : FileEnv) : List UploadResponse :=
  match e.net with
  | NetResult.respond r => [r]
  | NetResult.transportError _ => []

/-- The raw responses accumulated by the successful steps of a
file/environment prefix. -/
def okRespFn (pn : String) (msel : Option EmbeddingPayload) (p : File × FileEnv) :
    List UploadResponse :=
  match (stepRun pn msel p.1 p.2).result with
  | SingleResult.ok r => [r]
  | SingleResult.err _ => []

/-- The payloads sent by the steps of a file/environment prefix. -/
def okCallFn (pn : String) (msel : Option EmbeddingPayload) (p : File × FileEnv) :
    List UploadPayload :=
  (stepRun pn msel p.1 p.2).payloadSent.toList

/-- Concatenation of the images of a list-valued function (structural, so
it reduces in the kernel). -/
def flatListMap (g : α → List β) : List α → List β
  | [] => []
  | a :: l => g a ++ flatListMap g l

/-- Pair two lists elementwise, truncating at the shorter. -/
def pairUp : List α → List β → List (α × β)
  | [], _ => []
  | _ :: _, [] => []
  | a :: as, b :: bs => (a, b) :: pairUp as bs

/- ## Concrete example data used by witnesses and counterexamples -/

def exSession : Option Session := some ⟨"sid-1", some ⟨"alice"⟩, JsVal.vBool true⟩

/-- A session whose logged-in flag was cleared (e.g. logout between files). -/
def exSessionStale : Option Session := some ⟨"sid-1", some ⟨"alice"⟩, JsVal.vBool false⟩

def exFile : File := ⟨"a.txt", 1000, "", 7⟩

/-- A file of 31 binary megabytes, exceeding the 30 MiB cap. -/
def exBigFile : File := ⟨"big.pdf", 31 * 1024 * 1024, "", 8⟩

def exResp : UploadResponse := ⟨200, none, 11⟩

def exResp2 : UploadResponse := ⟨200, none, 12⟩

def exRespBad : UploadResponse := ⟨500, none, 13⟩

/-- A result persisted by some earlier successful batch. -/
def exRespOld : UploadResponse := ⟨200, none, 99⟩

def exEnvOk : FileEnv := ⟨exSession, NetResult.respond exResp⟩

def exEnvOk2 : FileEnv := ⟨exSession, NetResult.respond exResp2⟩

def exEnvBad : FileEnv := ⟨exSession, NetResult.respond exRespBad⟩

def exEnvStale : FileEnv := ⟨exSessionStale, NetResult.respond exResp2⟩

def exState0 : UploadState := ⟨[], none⟩

/-- Two files, second upload answered with status 500. -/
def exCfgFail : RunConfig := ⟨"proj", none, [exFile, exFile], [exEnvOk, exEnvBad]⟩

/-- One small file, no embedding model selected. -/
def exCfgNoModel : RunConfig := ⟨"proj", none, [exFile], [exEnvOk]⟩

/-- One oversize file with a valid session. -/
def exCfgOversize : RunConfig := ⟨"proj", none, [exBigFile], [exEnvOk]⟩

/-- A small file followed by an oversize one: the cap aborts mid-batch. -/
def exCfgOversizeMid : RunConfig := ⟨"proj", none, [exFile, exBigFile], [exEnvOk, exEnvOk]⟩

/-- Two files, session invalidated before the second. -/
def exCfgStale : RunConfig := ⟨"proj", none, [exFile, exFile], [exEnvOk, exEnvStale]⟩

/-- Two files, both succeeding. -/
def exCfgTwo : RunConfig := ⟨"proj", none, [exFile, exFile], [exEnvOk, exEnvOk2]⟩

/-- 101 files, all succeeding: the reported percentages collide at 50. -/
def exCfg101 : RunConfig :=
  ⟨"proj", none, List.replicate 101 exFile, List.replicate 101 exEnvOk⟩

def exIngestOkSummary : IngestResponse := ⟨200, some (SummaryVal.obj 2 2 0), none, none⟩

def exIngestOkResults : IngestResponse := ⟨200, none, some [1, 2], none⟩

def exIngestEmpty : IngestResponse := ⟨200, none, none, none⟩

/- ## Helper lemmas about single upload steps -/

/-- A succeeding step went to the network (its environment responded) and
returned that raw response whole, with the payload it had built. -/
theorem stepOk_elim {pn : String} {msel : Option EmbeddingPayload} {f : File} {e : FileEnv}
    (h : stepOk pn msel f e = true) :
    ∃ r sid, e.net = NetResult.respond r ∧ r.statusCode = 200 ∧
      getSessionId e.session = some sid ∧
      stepRun pn msel f e =
        ⟨SingleResult.ok r, some (buildUploadPayload pn msel sid (userIdOf e.session) f)⟩ := by
  unfold stepOk at h
  unfold stepRun uploadSingleFile at h ⊢
  cases hs : getSessionId e.session with
  | none => rw [hs] at h; simp at h
  | some sid =>
    rw [hs] at h
    simp only [hs]
    by_cases hsize : 30 * 1024 * 1024 < f.size
    · simp [hsize] at h
    · simp only [if_neg hsize] at h ⊢
      cases hnet : e.net with
      | transportError m => rw [hnet] at h; simp at h
      | respond r =>
        rw [hnet] at h
        simp only [hnet]
        by_cases hst : r.statusCode ≠ 200
        · simp [hst] at h
        · exact ⟨r, sid, rfl, by omega, rfl, by simp [hst]⟩

/-- A failing step's result is the thrown error message. -/
theorem stepOk_false_elim {pn : String} {msel : Option EmbeddingPayload} {f : File} {e : FileEnv}
    (h : stepOk pn msel f e = false) :
    (stepRun pn msel f e).result = SingleResult.err (stepErrMsg (stepRun pn msel f e)) := by
  unfold stepOk at h
  unfold stepErrMsg
  cases hres : (stepRun pn msel f e).result with
  | ok r => rw [hres] at h; simp at h
  | err m => simp

/-- Every payload `uploadSingleFile` ever sends was built by
`buildUploadPayload` from the project name, model selection, session and
file of that call. -/
theorem uploadSingleFile_payload_shape (pn : String) (msel : Option EmbeddingPayload)
    (sess : Option Session) (f : File) (net : NetResult) :
    (uploadSingleFile pn msel sess f net).payloadSent = none ∨
    ∃ sid, (uploadSingleFile pn msel sess f net).payloadSent =
      some (buildUploadPayload pn msel sid (userIdOf sess) f) := by
  unfold uploadSingleFile
  cases getSessionId sess with
  | none => simp
  | some sid =>
    by_cases hsize : 30 * 1024 * 1024 < f.size
    · simp [hsize]
    · simp only [if_neg hsize]
      cases net with
      | transportError m => exact Or.inr ⟨sid, rfl⟩
      | respond r =>
        by_cases hst : r.statusCode ≠ 200
        · simp only [if_pos hst]; exact Or.inr ⟨sid, rfl⟩
        · simp only [if_neg hst]; exact Or.inr ⟨sid, rfl⟩

/- ## Helper lemmas about the upload loop -/

/-- Running the loop across a prefix of all-succeeding steps accumulates
exactly those steps' responses, payloads and percentages and continues
with the rest. -/
theorem runLoop_ok_append (pn : String) (msel : Option EmbeddingPayload) (n : Nat)
    {good : List File} {genvs : List FileEnv}
    (h : List.Forall₂ (fun f e => stepOk pn msel f e = true) good genvs) :
    ∀ i restF restE acc calls pcts,
      runLoop pn msel n i (good ++ restF) (genvs ++ restE) acc calls pcts =
      runLoop pn msel n (i + good.length) restF restE
        (acc ++ flatListMap (okRespFn pn msel) (pairUp good genvs))
        (calls ++ flatListMap (okCallFn pn msel) (pairUp good genvs))
        (pcts ++ percentsFrom i n good.length) := by
  induction h with
  | nil =>
    intro i restF restE acc calls pcts
    simp [flatListMap, percentsFrom]
  | @cons f e good' genvs' hfe htail ih =>
    intro i restF restE acc calls pcts
    obtain ⟨r, sid, hnet, hst, hsess, hstep⟩ := stepOk_elim hfe
    rw [List.cons_append, List.cons_append]
    simp only [runLoop, hstep]
    rw [ih (i + 1) restF restE]
    simp only [flatListMap, okRespFn, okCallFn, hstep, List.length_cons, percentsFrom,
      Option.toList_some, List.append_assoc, List.singleton_append, Nat.add_succ, Nat.succ_add]

/-- Each succeeding step contributes exactly one raw response. -/
theorem flat_okResp_length (pn : String) (msel : Option EmbeddingPayload)
    {good : List File} {genvs : List FileEnv}
    (h : List.Forall₂ (fun f e => stepOk pn msel f e = true) good genvs) :
    (flatListMap (okRespFn pn msel) (pairUp good genvs)).length = good.length := by
  induction h with
  | nil => simp [flatListMap]
  | @cons f e good' genvs' hfe htail ih =>
    obtain ⟨r, sid, hnet, hst, hsess, hstep⟩ := stepOk_elim hfe
    simp only [pairUp, flatListMap, okRespFn, hstep, List.singleton_append,
      List.length_cons, ih]

/-- Each succeeding step sends exactly one payload. -/
theorem flat_okCall_length (pn : String) (msel : Option EmbeddingPayload)
    {good : List File} {genvs : List FileEnv}
    (h : List.Forall₂ (fun f e => stepOk pn msel f e = true) good genvs) :
    (flatListMap (okCallFn pn msel) (pairUp good genvs)).length = good.length := by
  induction h with
  | nil => simp [flatListMap]
  | @cons f e good' genvs' hfe htail ih =>
    obtain ⟨r, sid, hnet, hst, hsess, hstep⟩ := stepOk_elim hfe
    simp only [pairUp, flatListMap, okCallFn, hstep, Option.toList_some,
      List.singleton_append, List.length_cons, ih]

/-- Over an all-succeeding prefix, the accumulated responses are exactly
the raw responses the network delivered, in order. -/
theorem flat_okResp_eq_envResp (pn : String) (msel : Option EmbeddingPayload)
    {good : List File} {genvs : List FileEnv}
    (h : List.Forall₂ (fun f e => stepOk pn msel f e = true) good genvs) :
    flatListMap (okRespFn pn msel) (pairUp good genvs) = flatListMap envResp genvs := by
  induction h with
  | nil => simp [flatListMap]
  | @cons f e good' genvs' hfe htail ih =>
    obtain ⟨r, sid, hnet, hst, hsess, hstep⟩ := stepOk_elim hfe
    simp only [pairUp, flatListMap, okRespFn, envResp, hstep, hnet,
      List.singleton_append, ih]

/-- A batch that passes validation and whose every step succeeds: the
final in-memory sequence is the accumulated raw responses, the buffer is
written once with exactly that sequence, and the loop reports the
percentage sequence `percentsFrom 0 n n`. -/
theorem uploadSelectedFiles_all_ok (cfg : RunConfig) (st : UploadState)
    (hne : cfg.files ≠ [])
    (hpn : jsTrim cfg.projectName ≠ "")
    (hok : List.Forall₂ (fun f e => stepOk (jsTrim cfg.projectName) cfg.modelSel f e = true)
      cfg.files cfg.envs) :
    uploadSelectedFiles cfg st =
      ⟨RunOutcome.success,
       ⟨flatListMap (okRespFn (jsTrim cfg.projectName) cfg.modelSel) (pairUp cfg.files cfg.envs),
        some (flatListMap (okRespFn (jsTrim cfg.projectName) cfg.modelSel) (pairUp cfg.files cfg.envs))⟩,
       flatListMap (okCallFn (jsTrim cfg.projectName) cfg.modelSel) (pairUp cfg.files cfg.envs),
       percentsFrom 0 cfg.files.length cfg.files.length⟩ := by
  unfold uploadSelectedFiles
  have hne' : cfg.files.isEmpty = false := by
    cases hf : cfg.files with
    | nil => exact absurd hf hne
    | cons a l => simp
  rw [hne']
  simp only [Bool.false_eq_true, if_false, if_neg hpn]
  have := runLoop_ok_append (jsTrim cfg.projectName) cfg.modelSel cfg.files.length hok
    0 [] [] [] [] []
  rw [List.append_nil, List.append_nil] at this
  rw [this]
  simp [runLoop]

/-- A batch that passes validation and fails at the file after an
all-succeeding prefix: the outcome is the failing step's error, the
in-memory sequence keeps exactly the prefix's responses, the localStorage
buffer is left cleared (`none`), and the network calls are the prefix's
plus whatever the failing step sent. -/
theorem uploadSelectedFiles_fail_at (cfg : RunConfig) (st : UploadState)
    (good : List File) (genvs : List FileEnv) (bad : File) (benv : FileEnv)
    (restF : List File) (restE : List FileEnv)
    (hf : cfg.files = good ++ bad :: restF)
    (he : cfg.envs = genvs ++ benv :: restE)
    (hpn : jsTrim cfg.projectName ≠ "")
    (hok : List.Forall₂ (fun f e => stepOk (jsTrim cfg.projectName) cfg.modelSel f e = true)
      good genvs)
    (hbad : stepOk (jsTrim cfg.projectName) cfg.modelSel bad benv = false) :
    uploadSelectedFiles cfg st =
      ⟨RunOutcome.batchError (stepErrMsg (stepRun (jsTrim cfg.projectName) cfg.modelSel bad benv)),
       ⟨flatListMap (okRespFn (jsTrim cfg.projectName) cfg.modelSel) (pairUp good genvs), none⟩,
       flatListMap (okCallFn (jsTrim cfg.projectName) cfg.modelSel) (pairUp good genvs) ++
         (stepRun (jsTrim cfg.projectName) cfg.modelSel bad benv).payloadSent.toList,
       percentsFrom 0 cfg.files.length good.length⟩ := by
  unfold uploadSelectedFiles
  have hne' : cfg.files.isEmpty = false := by
    rw [hf]
    cases good <;> simp
  rw [hne']
  simp only [Bool.false_eq_true, if_false, if_neg hpn]
  rw [hf, he]
  rw [runLoop_ok_append (jsTrim cfg.projectName) cfg.modelSel
    ((good ++ bad :: restF).length) hok 0 (bad :: restF) (benv :: restE) [] [] []]
  simp only [runLoop, stepOk_false_elim hbad, List.nil_append, Nat.zero_add]

/-- Every payload the loop sends (beyond those already accumulated) was
built by `buildUploadPayload` from the loop's project name and model
selection. -/
theorem runLoop_calls_shape (pn : String) (msel : Option EmbeddingPayload) (n : Nat) :
    ∀ (fs : List File) (es : List FileEnv) (i : Nat) (acc : List UploadResponse)
      (calls : List UploadPayload) (pcts : List Nat) (p : UploadPayload),
      p ∈ (runLoop pn msel n i fs es acc calls pcts).2.2.1 →
      p ∈ calls ∨ ∃ sid uid f, p = buildUploadPayload pn msel sid uid f := by
  intro fs
  induction fs with
  | nil => intro es i acc calls pcts p hp; rw [runLoop] at hp; exact Or.inl hp
  | cons f fs ih =>
    intro es i acc calls pcts p hp
    cases es with
    | nil => rw [runLoop] at hp; exact Or.inl hp
    | cons e es =>
      have hshape := uploadSingleFile_payload_shape pn msel e.session f e.net
      rw [runLoop] at hp
      cases hres : (stepRun pn msel f e).result with
      | err m =>
        rw [hres] at hp
        simp only at hp
        rcases List.mem_append.mp hp with hl | hr
        · exact Or.inl hl
        · right
          rcases hshape with hnone | ⟨sid, hsid⟩
          · rw [show (stepRun pn msel f e).payloadSent = none from hnone] at hr
            simp at hr
          · rw [show (stepRun pn msel f e).payloadSent = _ from hsid] at hr
            simp at hr
            exact ⟨sid, userIdOf e.session, f, hr⟩
      | ok r =>
        rw [hres] at hp
        simp only at hp
        rcases ih es (i + 1) (acc ++ [r]) (calls ++ (stepRun pn msel f e).payloadSent.toList)
          (pcts ++ [jsRoundPercent (i + 1) n]) p hp with hl | hr
        · rcases List.mem_append.mp hl with hc | hs
          · exact Or.inl hc
          · right
            rcases hshape with hnone | ⟨sid, hsid⟩
            · rw [show (stepRun pn msel f e).payloadSent = none from hnone] at hs
              simp at hs
            · rw [show (stepRun pn msel f e).payloadSent = _ from hsid] at hs
              simp at hs
              exact ⟨sid, userIdOf e.session, f, hs⟩
        · exact Or.inr hr

/- ## Arithmetic of the reported percentages -/

theorem jsRoundPercent_mono {k l : Nat} (n : Nat) (h : k ≤ l) :
    jsRoundPercent k n ≤ jsRoundPercent l n := by
  unfold jsRoundPercent
  exact Nat.div_le_div_right (by omega)

theorem jsRoundPercent_strict {n : Nat} (hn : 0 < n) (h100 : n ≤ 100) (k : Nat) :
    jsRoundPercent k n < jsRoundPercent (k + 1) n := by
  unfold jsRoundPercent
  have h1 : (200 * k + n) / (2 * n) + 1 = (200 * k + n + 2 * n) / (2 * n) := by
    rw [Nat.add_div_right _ (by omega)]
  have h2 : (200 * k + n + 2 * n) / (2 * n) ≤ (200 * (k + 1) + n) / (2 * n) :=
    Nat.div_le_div_right (by omega)
  omega

theorem jsRoundPercent_last {n : Nat} (hn : 0 < n) : jsRoundPercent n n = 100 := by
  unfold jsRoundPercent
  exact Nat.div_eq_of_lt_le (by omega) (by omega)

theorem percentsFrom_mem {n m : Nat} :
    ∀ {i x : Nat}, x ∈ percentsFrom i n m → ∃ j, j < m ∧ x = jsRoundPercent (i + j + 1) n := by
  induction m with
  | zero => intro i x hx; simp [percentsFrom] at hx
  | succ m ih =>
    intro i x hx
    rw [percentsFrom] at hx
    rcases List.mem_cons.mp hx with h | h
    · exact ⟨0, by omega, by simpa using h⟩
    · rcases ih h with ⟨j, hj, hx'⟩
      exact ⟨j + 1, by omega, by rw [hx']; congr 1; omega⟩

/-- The reported percentage sequence is non-decreasing. -/
theorem percentsFrom_pairwise_le (n : Nat) :
    ∀ m i, List.Pairwise (· ≤ ·) (percentsFrom i n m) := by
  intro m
  induction m with
  | zero => intro i; simp [percentsFrom]
  | succ m ih =>
    intro i
    rw [percentsFrom]
    refine List.Pairwise.cons ?_ (ih (i + 1))
    intro x hx
    rcases percentsFrom_mem hx with ⟨j, hj, hx'⟩
    rw [hx']
    exact jsRoundPercent_mono n (by omega)

/-- With at most 100 files the reported percentage sequence is strictly
increasing. -/
theorem percentsFrom_pairwise_lt {n : Nat} (hn : 0 < n) (h100 : n ≤ 100) :
    ∀ m i, List.Pairwise (· < ·) (percentsFrom i n m) := by
  have hstrict : ∀ k l : Nat, k < l → jsRoundPercent k n < jsRoundPercent l n := by
    intro k l hkl
    calc jsRoundPercent k n < jsRoundPercent (k + 1) n := jsRoundPercent_strict hn h100 k
      _ ≤ jsRoundPercent l n := jsRoundPercent_mono n (by omega)
  intro m
  induction m with
  | zero => intro i; simp [percentsFrom]
  | succ m ih =>
    intro i
    rw [percentsFrom]
    refine List.Pairwise.cons ?_ (ih (i + 1))
    intro x hx
    rcases percentsFrom_mem hx with ⟨j, hj, hx'⟩
    rw [hx']
    exact hstrict _ _ (by omega)

/- ## Helper lemmas about processDocuments -/

/-- With the upload manager present (as modelled), the direct-localStorage
backup branch of `processDocuments` is unreachable: whenever the memory
sequence with storage fallback is empty, the storage itself holds nothing. -/
theorem backup_cond_false (st : UploadState) :
    ((getUploadedFilesData st).isEmpty && st.buffer.isSome
      && !(st.buffer.getD []).isEmpty) = false := by
  unfold getUploadedFilesData loadFromLocalStorage
  cases hb : st.buffer with
  | none => simp
  | some l =>
    by_cases hu : st.uploadedFiles.isEmpty
    · simp only [hu, if_true, Option.getD_some, Option.isSome_some]
      cases l.isEmpty <;> simp
    · simp [hu]

/-- An interpreted-success run of `processDocuments` implies the
preconditions held and leaves memory empty and the buffer removed. -/
theorem processDocuments_success_elim {pn : String} {sess : Option Session}
    {st : UploadState} {net : IngestNet}
    (h : (processDocuments pn sess st net).outcome.isSuccess = true) :
    jsTrim pn ≠ "" ∧ isValidSession sess = true ∧
      (processDocuments pn sess st net).state = ⟨[], none⟩ := by
  unfold processDocuments at h ⊢
  by_cases hpn : jsTrim pn = ""
  · rw [if_pos hpn] at h; simp [ProcOutcome.isSuccess] at h
  · rw [if_neg hpn] at h ⊢
    by_cases hs : isValidSession sess
    · refine ⟨hpn, hs, ?_⟩
      rw [hs] at h ⊢
      simp only [Bool.not_true, Bool.false_eq_true, if_false] at h ⊢
      rw [show ((getUploadedFilesData st).isEmpty && st.buffer.isSome
          && !(st.buffer.getD []).isEmpty) = false from backup_cond_false st] at h ⊢
      simp only [Bool.false_eq_true, if_false] at h ⊢
      by_cases hemp : (getUploadedFilesData st).isEmpty
      · rw [if_pos hemp] at h; simp [ProcOutcome.isSuccess] at h
      · rw [if_neg hemp] at h ⊢
        cases net with
        | transportError m => simp [ProcOutcome.isSuccess] at h
        | respond r =>
          by_cases hint : interpretIngest r
          · simp [hint, clearUploadedFilesData]
          · simp [hint, ProcOutcome.isSuccess] at h
    · rw [show isValidSession sess = false by simpa using hs] at h
      simp [ProcOutcome.isSuccess] at h

/-- A step taken while the session manager holds no valid session throws
the login error before building any payload. -/
theorem step_invalid_session {pn : String} {msel : Option EmbeddingPayload} {f : File}
    {e : FileEnv} (h : isValidSession e.session = false) :
    stepRun pn msel f e = ⟨SingleResult.err ("No valid session. Please login again."), none⟩ := by
  unfold stepRun uploadSingleFile getSessionId
  rw [h]
  simp

/-- A step on an oversize file (with a valid session) throws the size
error before building any payload. -/
theorem step_oversize {pn : String} {msel : Option EmbeddingPayload} {f : File} {e : FileEnv}
    (hs : isValidSession e.session = true) (hsize : 30 * 1024 * 1024 < f.size) :
    stepRun pn msel f e = ⟨SingleResult.err (sizeErrorMsg f), none⟩ := by
  cases hse : e.session with
  | none => rw [hse] at hs; simp [isValidSession] at hs
  | some s =>
    unfold stepRun uploadSingleFile getSessionId
    rw [hse] at hs
    rw [hse, hs]
    simp [hsize]

/- ## Substring lemmas -/

theorem startsWithList_self_append (p t : List Char) : startsWithList p (p ++ t) = true := by
  induction p with
  | nil => simp [startsWithList]
  | cons c p ih => simp [startsWithList, ih]

theorem containsList_here (p suf : List Char) : containsList p (p ++ suf) = true := by
  cases p with
  | nil =>
    cases suf with
    | nil => simp [containsList, startsWithList]
    | cons c l => simp [containsList, startsWithList]
  | cons c p =>
    have h := startsWithList_self_append (c :: p) suf
    rw [List.cons_append] at h
    rw [List.cons_append, containsList, h]
    simp

theorem containsList_concat (pre p suf : List Char) :
    containsList p (pre ++ (p ++ suf)) = true := by
  induction pre with
  | nil => rw [List.nil_append]; exact containsList_here p suf
  | cons c pre ih =>
    rw [List.cons_append, containsList, ih]
    simp

/-- With the preconditions met and a non-empty sequence available (from
memory or the storage fallback), `processDocuments` reduces to the single
ingestion call on exactly that sequence. -/
theorem processDocuments_main (pn : String) (sess : Option Session) (st : UploadState)
    (net : IngestNet) (hpn : jsTrim pn ≠ "") (hs : isValidSession sess = true)
    (hne : getUploadedFilesData st ≠ []) :
    processDocuments pn sess st net =
      match net with
      | IngestNet.transportError m =>
          ⟨ProcOutcome.ingestError m, st, some (getUploadedFilesData st)⟩
      | IngestNet.respond r =>
        if interpretIngest r then
          ⟨ProcOutcome.success (summaryLine r), ⟨[], none⟩, some (getUploadedFilesData st)⟩
        else
          ⟨ProcOutcome.ingestError (ingestErrorMsg r), st, some (getUploadedFilesData st)⟩ := by
  have hemp : (getUploadedFilesData st).isEmpty = false := by
    cases hg : getUploadedFilesData st with
    | nil => exact absurd hg hne
    | cons a l => simp
  unfold processDocuments
  rw [if_neg hpn, hs]
  simp only [Bool.not_true, Bool.false_eq_true, if_false]
  rw [show ((getUploadedFilesData st).isEmpty && st.buffer.isSome
      && !(st.buffer.getD []).isEmpty) = false from backup_cond_false st]
  simp only [Bool.false_eq_true, if_false, hemp, clearUploadedFilesData]

/-- A `processDocuments` call that did not interpret success leaves the
state exactly as it was. -/
theorem processDocuments_fail_state {pn : String} {sess : Option Session}
    {st : UploadState} {net : IngestNet}
    (h : (processDocuments pn sess st net).outcome.isSuccess = false) :
    (processDocuments pn sess st net).state = st := by
  unfold processDocuments at h ⊢
  by_cases h1 : jsTrim pn = ""
  · rw [if_pos h1]
  · rw [if_neg h1] at h ⊢
    by_cases h2 : isValidSession sess
    · rw [h2] at h ⊢
      simp only [Bool.not_true, Bool.false_eq_true, if_false] at h ⊢
      rw [show ((getUploadedFilesData st).isEmpty && st.buffer.isSome
          && !(st.buffer.getD []).isEmpty) = false from backup_cond_false st] at h ⊢
      simp only [Bool.false_eq_true, if_false] at h ⊢
      by_cases hemp : (getUploadedFilesData st).isEmpty
      · rw [if_pos hemp]
      · rw [if_neg hemp] at h ⊢
        cases net with
        | transportError m => rfl
        | respond r =>
          by_cases hint : interpretIngest r
          · simp [hint, ProcOutcome.isSuccess] at h
          · simp [hint]
    · rw [show isValidSession sess = false by simpa using h2]
      simp

/-- The main branch of `uploadSelectedFiles`, given the two validation
checks pass and the loop's value. -/
theorem uploadSelectedFiles_main (cfg : RunConfig) (st : UploadState)
    (h1 : cfg.files.isEmpty = false) (h2 : jsTrim cfg.projectName ≠ "")
    (out : RunOutcome) (acc : List UploadResponse) (calls2 : List UploadPayload)
    (pcts : List Nat)
    (hrl : runLoop (jsTrim cfg.projectName) cfg.modelSel cfg.files.length 0
      cfg.files cfg.envs [] [] [] = (out, acc, calls2, pcts)) :
    uploadSelectedFiles cfg st =
      match out with
      | RunOutcome.success => ⟨RunOutcome.success, ⟨acc, some acc⟩, calls2, pcts⟩
      | o => ⟨o, ⟨acc, none⟩, calls2, pcts⟩ := by
  unfold uploadSelectedFiles
  rw [h1]
  simp only [Bool.false_eq_true, if_false, if_neg h2, hrl]
  cases out <;> rfl

/- ## Claim theorems -/

/-- C1 counterexample: in the two-file batch whose second upload is
answered with status 500 (failing index i = 1), the in-memory sequence
keeps the 1 prior result but the Durable Response Buffer holds 0 results,
not the claimed i = 1 — the buffer is not written after each append. -/
theorem C1_counterexample :
    (uploadSelectedFiles exCfgFail exState0).outcome
        = RunOutcome.batchError ("Upload failed at Lambda") ∧
    (uploadSelectedFiles exCfgFail exState0).state.uploadedFiles.length = 1 ∧
    ¬ (loadFromLocalStorage (uploadSelectedFiles exCfgFail exState0).state).length = 1 := by
  decide

/-- C1 (amended): the Durable Response Buffer is cleared when a batch
starts and written only once, after every file succeeds; so a batch that
passes validation and fails at the file after an all-succeeding prefix of
length i leaves exactly those i prior results in the in-memory sequence
while the buffer holds zero results (the storage key is absent and a load
yields the empty sequence). -/
theorem C1_buffer_on_failure (cfg : RunConfig) (st : UploadState)
    (good : List File) (genvs : List FileEnv) (bad : File) (benv : FileEnv)
    (restF : List File) (restE : List FileEnv)
    (hf : cfg.files = good ++ bad :: restF)
    (he : cfg.envs = genvs ++ benv :: restE)
    (hpn : jsTrim cfg.projectName ≠ "")
    (hok : List.Forall₂ (fun f e => stepOk (jsTrim cfg.projectName) cfg.modelSel f e = true)
      good genvs)
    (hbad : stepOk (jsTrim cfg.projectName) cfg.modelSel bad benv = false) :
    (uploadSelectedFiles cfg st).state.uploadedFiles.length = good.length ∧
    (uploadSelectedFiles cfg st).state.buffer = none ∧
    loadFromLocalStorage (uploadSelectedFiles cfg st).state = [] := by
  rw [uploadSelectedFiles_fail_at cfg st good genvs bad benv restF restE hf he hpn hok hbad]
  exact ⟨flat_okResp_length _ _ hok, rfl, rfl⟩

/-- C1 witness: the amended statement evaluated on the concrete two-file
batch failing at index 1. -/
theorem C1_buffer_on_failure_witness :
    (uploadSelectedFiles exCfgFail exState0).state.uploadedFiles.length = 1 ∧
    (uploadSelectedFiles exCfgFail exState0).state.buffer = none ∧
    loadFromLocalStorage (uploadSelectedFiles exCfgFail exState0).state = [] :=
  C1_buffer_on_failure exCfgFail exState0 [exFile] [exEnvOk] exFile exEnvBad [] []
    rfl rfl (by decide) (List.Forall₂.cons (by decide) List.Forall₂.nil) (by decide)

/-- C3 counterexample: with one result already persisted, a new upload
batch that passes validation and then fails on an oversize file leaves the
Durable Response Buffer empty: the previously persisted successful result
was removed without any successful ingestion, so the buffer is not
additive until a successful-ingestion clear. -/
theorem C3_counterexample :
    (uploadSelectedFiles exCfgOversize ⟨[], some [exRespOld]⟩).outcome
        = RunOutcome.batchError (sizeErrorMsg exBigFile) ∧
    loadFromLocalStorage (uploadSelectedFiles exCfgOversize ⟨[], some [exRespOld]⟩).state
        = [] := by
  decide

/-- C3 (amended): within `processDocuments` the buffer is cleared exactly
on interpreted success — every failure leaves the state untouched, and an
interpreted success leaves memory and buffer empty; but in addition every
upload batch that reaches its loop clears the buffer at batch start, so a
batch error leaves the buffer empty rather than intact. -/
theorem C3_buffer_clearing (pn : String) (sess : Option Session) (st : UploadState)
    (net : IngestNet) (cfg : RunConfig) (st2 : UploadState) :
    ((processDocuments pn sess st net).outcome.isSuccess = false →
      (processDocuments pn sess st net).state = st)
    ∧ ((processDocuments pn sess st net).outcome.isSuccess = true →
      (processDocuments pn sess st net).state = ⟨[], none⟩)
    ∧ (∀ m, (uploadSelectedFiles cfg st2).outcome = RunOutcome.batchError m →
      (uploadSelectedFiles cfg st2).state.buffer = none) := by
  refine ⟨fun h => processDocuments_fail_state h,
    fun h => (processDocuments_success_elim h).2.2, ?_⟩
  intro m hm
  by_cases h1 : cfg.files.isEmpty = true
  · unfold uploadSelectedFiles at hm ⊢
    rw [if_pos h1] at hm ⊢
    simp at hm
  · have h1' : cfg.files.isEmpty = false := by
      simpa [Bool.not_eq_true] using h1
    by_cases h2 : jsTrim cfg.projectName = ""
    · unfold uploadSelectedFiles at hm ⊢
      rw [if_neg h1] at hm ⊢
      rw [if_pos h2] at hm ⊢
      simp at hm
    · rcases hrl : runLoop (jsTrim cfg.projectName) cfg.modelSel cfg.files.length 0
        cfg.files cfg.envs [] [] [] with ⟨out, acc, calls2, pcts⟩
      rw [uploadSelectedFiles_main cfg st2 h1' h2 out acc calls2 pcts hrl] at hm ⊢
      cases out with
      | success => simp at hm
      | validationError s => rfl
      | batchError s => rfl

/-- C3 witness: the amended statement evaluated at a failing ingestion
(state kept), a successful ingestion (state cleared), and the failing
upload batch (buffer left empty). -/
theorem C3_buffer_clearing_witness :
    (processDocuments "proj" exSession ⟨[exResp], none⟩
        (IngestNet.respond exIngestEmpty)).state = ⟨[exResp], none⟩ ∧
    (processDocuments "proj" exSession ⟨[exResp], none⟩
        (IngestNet.respond exIngestOkSummary)).state = ⟨[], none⟩ ∧
    (uploadSelectedFiles exCfgOversize ⟨[], some [exRespOld]⟩).state.buffer = none :=
  ⟨(C3_buffer_clearing "proj" exSession ⟨[exResp], none⟩ (IngestNet.respond exIngestEmpty)
      exCfgOversize ⟨[], some [exRespOld]⟩).1 (by decide),
   (C3_buffer_clearing "proj" exSession ⟨[exResp], none⟩ (IngestNet.respond exIngestOkSummary)
      exCfgOversize ⟨[], some [exRespOld]⟩).2.1 (by decide),
   (C3_buffer_clearing "proj" exSession ⟨[exResp], none⟩ (IngestNet.respond exIngestOkSummary)
      exCfgOversize ⟨[], some [exRespOld]⟩).2.2 (sizeErrorMsg exBigFile) (by decide)⟩

/-- C2 counterexample: (a) a batch with no embedding model selected does
NOT reject — it proceeds, makes a network call with the fallback model and
succeeds; (b) with both no files and an empty project name the reported
reason is the file-selection one, so the checks run file selection first,
not project name first. -/
theorem C2_counterexample :
    ((uploadSelectedFiles exCfgNoModel exState0).outcome = RunOutcome.success ∧
      (uploadSelectedFiles exCfgNoModel exState0).calls.length = 1) ∧
    uploadSelectedFiles ⟨"", none, [], []⟩ exState0 =
      ⟨RunOutcome.validationError ("Please select files to upload"), exState0, [], []⟩ := by
  decide

/-- C2 (amended): the validation phase has exactly two checks, in the
order file selection → project name, each rejecting with no state
mutation and no network call; there is no model-selection check — when no
model is selected every payload sent carries the fallback provider
"bedrock" and model "amazon.titan-embed-text-v2:0" — and session validity
is only re-checked per file inside `uploadSingleFile`. -/
theorem C2_validation_phase (cfg : RunConfig) (st : UploadState) :
    (cfg.files = [] →
      uploadSelectedFiles cfg st =
        ⟨RunOutcome.validationError ("Please select files to upload"), st, [], []⟩)
    ∧ (cfg.files ≠ [] → jsTrim cfg.projectName = "" →
      uploadSelectedFiles cfg st =
        ⟨RunOutcome.validationError ("Please enter a project name"), st, [], []⟩)
    ∧ (cfg.modelSel = none →
      ∀ p ∈ (uploadSelectedFiles cfg st).calls,
        p.embedding_provider = "bedrock" ∧
        p.embedding_model = "amazon.titan-embed-text-v2:0") := by
  refine ⟨?_, ?_, ?_⟩
  · intro h
    unfold uploadSelectedFiles
    rw [if_pos (by simp [h])]
  · intro h hpn
    unfold uploadSelectedFiles
    have h1 : cfg.files.isEmpty = false := by
      cases hf : cfg.files with
      | nil => exact absurd hf h
      | cons a l => simp
    rw [h1]
    simp only [Bool.false_eq_true, if_false, if_pos hpn]
  · intro hms p hp
    by_cases h1 : cfg.files.isEmpty = true
    · unfold uploadSelectedFiles at hp
      rw [if_pos h1] at hp
      simp at hp
    · have h1' : cfg.files.isEmpty = false := by
        simpa [Bool.not_eq_true] using h1
      by_cases h2 : jsTrim cfg.projectName = ""
      · unfold uploadSelectedFiles at hp
        rw [if_neg h1] at hp
        rw [if_pos h2] at hp
        simp at hp
      · rcases hrl : runLoop (jsTrim cfg.projectName) cfg.modelSel cfg.files.length 0
          cfg.files cfg.envs [] [] [] with ⟨out, acc, calls2, pcts⟩
        rw [uploadSelectedFiles_main cfg st h1' h2 out acc calls2 pcts hrl] at hp
        have hp2 : p ∈ calls2 := by
          cases out <;> simpa using hp
        have := runLoop_calls_shape (jsTrim cfg.projectName) cfg.modelSel cfg.files.length
          cfg.files cfg.envs 0 [] [] [] p (by rw [hrl]; exact hp2)
        rcases this with hmem | ⟨sid, uid, f, hpay⟩
        · simp at hmem
        · rw [hpay, hms]
          exact ⟨rfl, rfl⟩

/-- C2 witness: the amended statement evaluated on concrete inputs — the
empty-file rejection, the empty-project rejection, and the default model
fields of the payload sent when no model is selected. -/
theorem C2_validation_phase_witness :
    uploadSelectedFiles ⟨"proj", none, [], []⟩ exState0 =
      ⟨RunOutcome.validationError ("Please select files to upload"), exState0, [], []⟩ ∧
    uploadSelectedFiles ⟨"   ", none, [exFile], [exEnvOk]⟩ exState0 =
      ⟨RunOutcome.validationError ("Please enter a project name"), exState0, [], []⟩ ∧
    (∀ p ∈ (uploadSelectedFiles exCfgNoModel exState0).calls,
      p.embedding_provider = "bedrock" ∧
      p.embedding_model = "amazon.titan-embed-text-v2:0") :=
  ⟨(C2_validation_phase ⟨"proj", none, [], []⟩ exState0).1 rfl,
   (C2_validation_phase ⟨"   ", none, [exFile], [exEnvOk]⟩ exState0).2.1
      (by decide) (by decide),
   (C2_validation_phase exCfgNoModel exState0).2.2 rfl⟩

/-- A prefix match survives extending the list on the right. -/
theorem startsWithList_extend (p : List Char) :
    ∀ l1 l2, startsWithList p l1 = true → startsWithList p (l1 ++ l2) = true := by
  induction p with
  | nil => intro l1 l2 _; simp [startsWithList]
  | cons c ps ih =>
    intro l1 l2 h
    cases l1 with
    | nil => simp [startsWithList] at h
    | cons d l1 =>
      rw [List.cons_append, startsWithList]
      rw [startsWithList] at h
      rw [Bool.and_eq_true] at h
      rcases h with ⟨h1, h2⟩
      rw [h1, ih l1 l2 h2]
      rfl

/-- An occurrence in the right part is an occurrence in the whole. -/
theorem containsList_append_right (p l1 l2 : List Char) (h : containsList p l2 = true) :
    containsList p (l1 ++ l2) = true := by
  induction l1 with
  | nil => rw [List.nil_append]; exact h
  | cons c l1 ih =>
    rw [List.cons_append, containsList, ih]
    simp

/-- An occurrence in the left part is an occurrence in the whole. -/
theorem containsList_extend (p : List Char) :
    ∀ l1 l2, containsList p l1 = true → containsList p (l1 ++ l2) = true := by
  intro l1
  induction l1 with
  | nil =>
    intro l2 h
    cases p with
    | nil =>
      rw [List.nil_append]
      cases l2 with
      | nil => simp [containsList, startsWithList]
      | cons c rest => simp [containsList, startsWithList]
    | cons d p => simp [containsList, startsWithList] at h
  | cons c l1 ih =>
    intro l2 h
    rw [List.cons_append, containsList]
    rw [containsList] at h
    rw [Bool.or_eq_true] at h
    rcases h with h1 | h2
    · have := startsWithList_extend p (c :: l1) l2 h1
      rw [List.cons_append] at this
      rw [this]
      rfl
    · rw [ih l2 h2]
      simp

/-- Every list occurs in itself. -/
theorem containsList_self (p : List Char) : containsList p p = true := by
  have := containsList_here p []
  rwa [List.append_nil] at this

/-- C5: a file over the 30 MiB cap (30 × 1024 × 1024 bytes) at any
position in a batch — here, after an all-succeeding prefix of length i —
fails the entire batch at that file with the size error, before any
network call for that file (exactly the prefix's i calls are made, and
i results are retained); the error message is built from the file's
name and its size in MiB to one decimal place, and it contains both
"30MB" and the file name as substrings. -/
theorem C5_size_cap (cfg : RunConfig) (st : UploadState)
    (good : List File) (genvs : List FileEnv) (bad : File) (benv : FileEnv)
    (restF : List File) (restE : List FileEnv)
    (hf : cfg.files = good ++ bad :: restF)
    (he : cfg.envs = genvs ++ benv :: restE)
    (hpn : jsTrim cfg.projectName ≠ "")
    (hok : List.Forall₂ (fun f e => stepOk (jsTrim cfg.projectName) cfg.modelSel f e = true)
      good genvs)
    (hsize : 30 * 1024 * 1024 < bad.size)
    (hsess : isValidSession benv.session = true) :
    (uploadSelectedFiles cfg st).outcome = RunOutcome.batchError (sizeErrorMsg bad) ∧
    (uploadSelectedFiles cfg st).calls.length = good.length ∧
    (uploadSelectedFiles cfg st).state.uploadedFiles.length = good.length ∧
    sizeErrorMsg bad = "File \"" ++ bad.name ++ "\" is too large ("
      ++ fmtMiB1 bad.size ++ "MB). Max 30MB allowed." ∧
    strContains (sizeErrorMsg bad) ("30MB") = true ∧
    strContains (sizeErrorMsg bad) (bad.name) = true := by
  have hstep : stepRun (jsTrim cfg.projectName) cfg.modelSel bad benv =
      ⟨SingleResult.err (sizeErrorMsg bad), none⟩ := step_oversize hsess hsize
  have hbad : stepOk (jsTrim cfg.projectName) cfg.modelSel bad benv = false := by
    unfold stepOk
    rw [hstep]
  rw [uploadSelectedFiles_fail_at cfg st good genvs bad benv restF restE hf he hpn hok hbad]
  rw [hstep]
  refine ⟨rfl, ?_, flat_okResp_length _ _ hok, rfl, ?_, ?_⟩
  · simp only [Option.toList_none, List.append_nil]
    exact flat_okCall_length _ _ hok
  · unfold strContains sizeErrorMsg
    rw [String.data_append, String.data_append, String.data_append, String.data_append]
    exact containsList_append_right _ _ _ (by decide)
  · unfold strContains sizeErrorMsg
    rw [String.data_append, String.data_append, String.data_append, String.data_append]
    apply containsList_extend
    apply containsList_extend
    apply containsList_extend
    exact containsList_append_right _ _ _ (containsList_self _)

/-- C5 witness: the 31 binary-megabyte file aborts a two-file batch at
index 1 (one prior call, one retained result) and, as a single-file
batch, yields zero network calls; the message renders the size as
"31.0" and contains "30MB" and the file name. -/
theorem C5_size_cap_witness :
    (uploadSelectedFiles exCfgOversizeMid exState0).outcome
        = RunOutcome.batchError (sizeErrorMsg exBigFile) ∧
    (uploadSelectedFiles exCfgOversizeMid exState0).calls.length = 1 ∧
    (uploadSelectedFiles exCfgOversizeMid exState0).state.uploadedFiles.length = 1 ∧
    (uploadSelectedFiles exCfgOversize exState0).calls.length = 0 ∧
    sizeErrorMsg exBigFile = "File \"big.pdf\" is too large (31.0MB). Max 30MB allowed." ∧
    strContains (sizeErrorMsg exBigFile) ("30MB") = true ∧
    strContains (sizeErrorMsg exBigFile) ("big.pdf") = true :=
  ⟨(C5_size_cap exCfgOversizeMid exState0 [exFile] [exEnvOk] exBigFile exEnvOk [] []
      rfl rfl (by decide) (List.Forall₂.cons (by decide) List.Forall₂.nil)
      (by decide) (by decide)).1,
   (C5_size_cap exCfgOversizeMid exState0 [exFile] [exEnvOk] exBigFile exEnvOk [] []
      rfl rfl (by decide) (List.Forall₂.cons (by decide) List.Forall₂.nil)
      (by decide) (by decide)).2.1,
   (C5_size_cap exCfgOversizeMid exState0 [exFile] [exEnvOk] exBigFile exEnvOk [] []
      rfl rfl (by decide) (List.Forall₂.cons (by decide) List.Forall₂.nil)
      (by decide) (by decide)).2.2.1,
   (C5_size_cap exCfgOversize exState0 [] [] exBigFile exEnvOk [] []
      rfl rfl (by decide) List.Forall₂.nil (by decide) (by decide)).2.1,
   by decide, by decide, by decide⟩

/-- C4: with the preconditions met and a sequence available,
`processDocuments` interprets an ingestion response as success exactly
when its status code is 200 AND the body carries a summary or a results
collection; a 200 body with neither (and no error field) yields the
synthesized diagnostic embedding the status code and the two missing
fields; a 200 body with results but no summary is a success. -/
theorem C4_ingest_interpretation (pn : String) (sess : Option Session) (st : UploadState)
    (r : IngestResponse)
    (hpn : jsTrim pn ≠ "") (hs : isValidSession sess = true)
    (hne : getUploadedFilesData st ≠ []) :
    ((processDocuments pn sess st (IngestNet.respond r)).outcome.isSuccess = true ↔
      (r.statusCode = 200 ∧ (r.summary.isSome ∨ r.results.isSome)))
    ∧ (r.statusCode = 200 → r.summary = none → r.results = none → r.error = none →
        (processDocuments pn sess st (IngestNet.respond r)).outcome =
          ProcOutcome.ingestError
            ("Response validation failed (status: 200, has summary: false, has results: false)"))
    ∧ (r.statusCode = 200 → r.summary = none → r.results.isSome = true →
        (processDocuments pn sess st (IngestNet.respond r)).outcome.isSuccess = true) := by
  rw [processDocuments_main pn sess st (IngestNet.respond r) hpn hs hne]
  refine ⟨?_, ?_, ?_⟩
  · by_cases hint : interpretIngest r
    · simp only [hint, if_true]
      unfold interpretIngest at hint
      rw [Bool.and_eq_true, Bool.or_eq_true] at hint
      simp [ProcOutcome.isSuccess]
      exact ⟨by simpa using hint.1, hint.2⟩
    · simp only [if_neg hint]
      unfold interpretIngest at hint
      rw [Bool.and_eq_true, Bool.or_eq_true] at hint
      simp [ProcOutcome.isSuccess]
      intro h200
      have h1 : ¬(r.summary.isSome = true ∨ r.results.isSome = true) :=
        fun hone => hint ⟨by simp [h200], hone⟩
      exact ⟨Option.not_isSome_iff_eq_none.mp (fun hx => h1 (Or.inl hx)),
        Option.not_isSome_iff_eq_none.mp (fun hx => h1 (Or.inr hx))⟩
  · intro h200 hsum hres herr
    have hint : interpretIngest r = false := by
      unfold interpretIngest
      simp [hsum, hres]
    simp only [hint, Bool.false_eq_true, if_false]
    unfold ingestErrorMsg jsOrString
    rw [herr, hsum, hres, h200]
    rfl
  · intro h200 hsum hres
    have hint : interpretIngest r = true := by
      unfold interpretIngest
      simp [h200, hres]
    simp [hint, ProcOutcome.isSuccess]

/-- C4 witness: the interpretation evaluated at a 200 body with results
and no summary (success), and at a 200 empty body (synthesized failure
message). -/
theorem C4_ingest_interpretation_witness :
    ((processDocuments "proj" exSession ⟨[exResp], none⟩
        (IngestNet.respond exIngestOkResults)).outcome.isSuccess = true ↔
      (exIngestOkResults.statusCode = 200 ∧
        (exIngestOkResults.summary.isSome ∨ exIngestOkResults.results.isSome))) ∧
    (processDocuments "proj" exSession ⟨[exResp], none⟩
        (IngestNet.respond exIngestEmpty)).outcome =
      ProcOutcome.ingestError
        ("Response validation failed (status: 200, has summary: false, has results: false)") ∧
    (processDocuments "proj" exSession ⟨[exResp], none⟩
        (IngestNet.respond exIngestOkResults)).outcome.isSuccess = true :=
  ⟨(C4_ingest_interpretation "proj" exSession ⟨[exResp], none⟩ exIngestOkResults
      (by decide) (by decide) (by decide)).1,
   (C4_ingest_interpretation "proj" exSession ⟨[exResp], none⟩ exIngestEmpty
      (by decide) (by decide) (by decide)).2.1 rfl rfl rfl rfl,
   (C4_ingest_interpretation "proj" exSession ⟨[exResp], none⟩ exIngestOkResults
      (by decide) (by decide) (by decide)).2.2 rfl rfl rfl⟩

/-- C6: when the in-memory sequence is empty and the Durable Response
Buffer holds a non-empty sequence (the reload scenario), a
`processDocuments` call with a non-empty project name and a valid session
reads exactly the buffered sequence through the memory-then-buffer
fallback and submits exactly it to the ingestion endpoint. -/
theorem C6_resume (pn : String) (sess : Option Session) (l : List UploadResponse)
    (net : IngestNet)
    (hpn : jsTrim pn ≠ "") (hs : isValidSession sess = true) (hl : l ≠ []) :
    getUploadedFilesData ⟨[], some l⟩ = l ∧
    (processDocuments pn sess ⟨[], some l⟩ net).submitted = some l := by
  have hg : getUploadedFilesData ⟨[], some l⟩ = l := rfl
  refine ⟨hg, ?_⟩
  rw [processDocuments_main pn sess ⟨[], some l⟩ net hpn hs (by rw [hg]; exact hl)]
  cases net with
  | transportError m => rfl
  | respond r =>
    by_cases hint : interpretIngest r
    · simp [hint, hg]
    · simp [hint, hg]

/-- C6 witness: two buffered results and empty memory are submitted
verbatim. -/
theorem C6_resume_witness :
    getUploadedFilesData ⟨[], some [exResp, exResp2]⟩ = [exResp, exResp2] ∧
    (processDocuments "proj" exSession ⟨[], some [exResp, exResp2]⟩
        (IngestNet.respond exIngestOkSummary)).submitted = some [exResp, exResp2] :=
  C6_resume "proj" exSession [exResp, exResp2] (IngestNet.respond exIngestOkSummary)
    (by decide) (by decide) (by decide)

/-- C7: after a first `processDocuments` call interprets success (which
clears memory and buffer), an immediately following second call — same
project name and session — fails the non-empty-sequence validation and
submits nothing, so the consumed batch is never re-submitted. -/
theorem C7_idempotence (pn : String) (sess : Option Session) (st : UploadState)
    (net1 net2 : IngestNet)
    (h : (processDocuments pn sess st net1).outcome.isSuccess = true) :
    processDocuments pn sess (processDocuments pn sess st net1).state net2 =
      ⟨ProcOutcome.validationError
        ("No files have been uploaded yet. Please upload files first."), ⟨[], none⟩, none⟩ := by
  obtain ⟨hpn, hs, hst⟩ := processDocuments_success_elim h
  rw [hst]
  unfold processDocuments
  rw [if_neg hpn, hs]
  simp [getUploadedFilesData, loadFromLocalStorage]

/-- C7 witness: first call succeeds on one stored result; the second call
reports the no-files validation error. -/
theorem C7_idempotence_witness :
    processDocuments "proj" exSession
      (processDocuments "proj" exSession ⟨[exResp], none⟩
        (IngestNet.respond exIngestOkSummary)).state
      (IngestNet.respond exIngestOkSummary) =
      ⟨ProcOutcome.validationError
        ("No files have been uploaded yet. Please upload files first."), ⟨[], none⟩, none⟩ :=
  C7_idempotence "proj" exSession ⟨[exResp], none⟩ (IngestNet.respond exIngestOkSummary)
    (IngestNet.respond exIngestOkSummary) (by decide)

/-- C8: in a batch that passes validation and whose every upload
succeeds, the resulting sequence is exactly the raw backend responses in
submission order (each element the entire raw response object, untouched),
its length equals the number of selected files, and the ingestion phase
reads that same sequence unchanged. -/
theorem C8_all_success (cfg : RunConfig) (st : UploadState)
    (hne : cfg.files ≠ []) (hpn : jsTrim cfg.projectName ≠ "")
    (hok : List.Forall₂ (fun f e => stepOk (jsTrim cfg.projectName) cfg.modelSel f e = true)
      cfg.files cfg.envs) :
    (uploadSelectedFiles cfg st).outcome = RunOutcome.success ∧
    (uploadSelectedFiles cfg st).state.uploadedFiles = flatListMap envResp cfg.envs ∧
    (uploadSelectedFiles cfg st).state.uploadedFiles.length = cfg.files.length ∧
    (uploadSelectedFiles cfg st).state.buffer
        = some ((uploadSelectedFiles cfg st).state.uploadedFiles) ∧
    getUploadedFilesData (uploadSelectedFiles cfg st).state
        = (uploadSelectedFiles cfg st).state.uploadedFiles := by
  rw [uploadSelectedFiles_all_ok cfg st hne hpn hok]
  refine ⟨rfl, flat_okResp_eq_envResp _ _ hok, flat_okResp_length _ _ hok, rfl, ?_⟩
  unfold getUploadedFilesData loadFromLocalStorage
  have hlen := flat_okResp_length (jsTrim cfg.projectName) cfg.modelSel hok
  have hlen2 : cfg.files.length ≠ 0 := by
    cases hf : cfg.files with
    | nil => exact absurd hf hne
    | cons a l => simp
  cases hfl : flatListMap (okRespFn (jsTrim cfg.projectName) cfg.modelSel)
      (pairUp cfg.files cfg.envs) with
  | nil => rw [hfl] at hlen; exact absurd hlen.symm hlen2
  | cons a l => simp

/-- C8 witness: a two-file all-success batch accumulates the two raw
responses in order. -/
theorem C8_all_success_witness :
    (uploadSelectedFiles exCfgTwo exState0).outcome = RunOutcome.success ∧
    (uploadSelectedFiles exCfgTwo exState0).state.uploadedFiles
        = flatListMap envResp exCfgTwo.envs ∧
    (uploadSelectedFiles exCfgTwo exState0).state.uploadedFiles.length = 2 ∧
    (uploadSelectedFiles exCfgTwo exState0).state.buffer
        = some ((uploadSelectedFiles exCfgTwo exState0).state.uploadedFiles) ∧
    getUploadedFilesData (uploadSelectedFiles exCfgTwo exState0).state
        = (uploadSelectedFiles exCfgTwo exState0).state.uploadedFiles :=
  C8_all_success exCfgTwo exState0 (by decide) (by decide)
    (List.Forall₂.cons (by decide) (List.Forall₂.cons (by decide) List.Forall₂.nil))

set_option maxRecDepth 10000

/-- C9 counterexample: a 101-file all-success batch — the reported
percentage sequence repeats the value 50 (indices 49 and 50), so it is
not strictly increasing. -/
theorem C9_counterexample :
    (uploadSelectedFiles exCfg101 exState0).outcome = RunOutcome.success ∧
    ¬ List.Pairwise (· < ·) ((uploadSelectedFiles exCfg101 exState0).percents) := by
  decide

/-- C9 (amended): after each file i of an all-success batch of n files
the loop reports `Math.round(100·(i+1)/n)` (the integer-rounded
percentage, not the exact ratio); the sequence is deterministic and
non-decreasing, strictly increasing whenever n ≤ 100, and ends at 100. -/
theorem C9_progress (cfg : RunConfig) (st : UploadState)
    (hne : cfg.files ≠ []) (hpn : jsTrim cfg.projectName ≠ "")
    (hok : List.Forall₂ (fun f e => stepOk (jsTrim cfg.projectName) cfg.modelSel f e = true)
      cfg.files cfg.envs) :
    (uploadSelectedFiles cfg st).percents
        = percentsFrom 0 cfg.files.length cfg.files.length ∧
    List.Pairwise (· ≤ ·) ((uploadSelectedFiles cfg st).percents) ∧
    (cfg.files.length ≤ 100 →
      List.Pairwise (· < ·) ((uploadSelectedFiles cfg st).percents)) ∧
    jsRoundPercent cfg.files.length cfg.files.length = 100 := by
  have hn : 0 < cfg.files.length := by
    cases hf : cfg.files with
    | nil => exact absurd hf hne
    | cons a l => simp
  rw [uploadSelectedFiles_all_ok cfg st hne hpn hok]
  exact ⟨rfl, percentsFrom_pairwise_le _ _ _,
    fun h => percentsFrom_pairwise_lt hn h _ _, jsRoundPercent_last hn⟩

/-- C9 witness: the amended statement evaluated on the two-file batch
(percentages 50 then 100). -/
theorem C9_progress_witness :
    (uploadSelectedFiles exCfgTwo exState0).percents = percentsFrom 0 2 2 ∧
    List.Pairwise (· ≤ ·) ((uploadSelectedFiles exCfgTwo exState0).percents) ∧
    (2 ≤ 100 → List.Pairwise (· < ·) ((uploadSelectedFiles exCfgTwo exState0).percents)) ∧
    jsRoundPercent 2 2 = 100 :=
  C9_progress exCfgTwo exState0 (by decide) (by decide)
    (List.Forall₂.cons (by decide) (List.Forall₂.cons (by decide) List.Forall₂.nil))

/-- C10: the session is re-derived inside `uploadSingleFile` for every
file: a batch whose prefix of length i succeeds and whose session is
invalid at the moment of file i fails exactly there with the login error,
makes no network call for that file (i calls total), and keeps the i
prior results in memory; and the session is valid exactly when it has a
non-empty sessionId, a user object, and isLoggedIn strictly equal to the
boolean true. -/
theorem C10_session_revalidation (cfg : RunConfig) (st : UploadState)
    (good : List File) (genvs : List FileEnv) (bad : File) (benv : FileEnv)
    (restF : List File) (restE : List FileEnv)
    (hf : cfg.files = good ++ bad :: restF)
    (he : cfg.envs = genvs ++ benv :: restE)
    (hpn : jsTrim cfg.projectName ≠ "")
    (hok : List.Forall₂ (fun f e => stepOk (jsTrim cfg.projectName) cfg.modelSel f e = true)
      good genvs)
    (hbad : isValidSession benv.session = false) :
    (uploadSelectedFiles cfg st).outcome
        = RunOutcome.batchError ("No valid session. Please login again.") ∧
    (uploadSelectedFiles cfg st).state.uploadedFiles.length = good.length ∧
    (uploadSelectedFiles cfg st).calls.length = good.length ∧
    (∀ s : Session, isValidSession (some s) = true ↔
      (s.sessionId ≠ "" ∧ s.user.isSome ∧ s.isLoggedIn = JsVal.vBool true)) := by
  have hstep : stepRun (jsTrim cfg.projectName) cfg.modelSel bad benv =
      ⟨SingleResult.err ("No valid session. Please login again."), none⟩ :=
    step_invalid_session hbad
  have hbad2 : stepOk (jsTrim cfg.projectName) cfg.modelSel bad benv = false := by
    unfold stepOk
    rw [hstep]
  rw [uploadSelectedFiles_fail_at cfg st good genvs bad benv restF restE hf he hpn hok hbad2]
  rw [hstep]
  refine ⟨rfl, flat_okResp_length _ _ hok, ?_, ?_⟩
  · simp only [Option.toList_none, List.append_nil]
    exact flat_okCall_length _ _ hok
  · intro s
    unfold isValidSession
    rw [Bool.and_eq_true, Bool.and_eq_true]
    constructor
    · rintro ⟨⟨h1, h2⟩, h3⟩
      exact ⟨by simpa using h1, by simpa using h2, by simpa using h3⟩
    · rintro ⟨h1, h2, h3⟩
      exact ⟨⟨by simpa using h1, by simpa using h2⟩, by simp [h3]⟩

/-- C10 witness: a two-file batch whose session is invalidated before the
second file fails at file 1 with the login error, one network call and
one retained result. -/
theorem C10_session_revalidation_witness :
    (uploadSelectedFiles exCfgStale exState0).outcome
        = RunOutcome.batchError ("No valid session. Please login again.") ∧
    (uploadSelectedFiles exCfgStale exState0).state.uploadedFiles.length = 1 ∧
    (uploadSelectedFiles exCfgStale exState0).calls.length = 1 ∧
    (∀ s : Session, isValidSession (some s) = true ↔
      (s.sessionId ≠ "" ∧ s.user.isSome ∧ s.isLoggedIn = JsVal.vBool true)) :=
  C10_session_revalidation exCfgStale exState0 [exFile] [exEnvOk] exFile exEnvStale [] []
    rfl rfl (by decide) (List.Forall₂.cons (by decide) List.Forall₂.nil) (by decide)

end DocBot
